import Mathlib

/-!
Verification development for the `blockchain-wallet-validator` library
(`src/index.ts`): a shallow embedding of the address disambiguation and
validation engine, together with theorems about its documented behaviour.

Modelling conventions:
* JS strings are Lean `String` / `List Char`.  All inputs the library cares
  about are ASCII; the JS `toLowerCase` / `toUpperCase` / `trim` primitives
  are modelled on the ASCII range (non-ASCII characters are left unchanged
  by the case maps; the JS whitespace set is modelled explicitly).
* The two opaque external services of the library (`bs58check.decode` and
  the Unicode emoji character classes used by the NS-domain grammar) are
  parameters of the model, collected in the `Env` structure.  The keccak-256
  hash used by the EIP-55 checksum is implemented concretely.
* Regular-expression tests from the source are translated into decidable
  Boolean functions on the character list; each definition's doc comment
  names the source pattern it embeds.
-/

namespace BWV

/-! ## JS string primitives (ASCII fragment) -/

/-- `String.prototype.toLowerCase` restricted to ASCII: maps `A`-`Z` to
`a`-`z` and leaves every other character unchanged. -/
def toLowerJS (c : Char) : Char :=
  if 65 ≤ c.toNat && c.toNat ≤ 90 then Char.ofNat (c.toNat + 32) else c

/-- `String.prototype.toUpperCase` restricted to ASCII. -/
def toUpperJS (c : Char) : Char :=
  if 97 ≤ c.toNat && c.toNat ≤ 122 then Char.ofNat (c.toNat - 32) else c

/-- Lowercase a whole string (ASCII case map). -/
def lowerStr (s : String) : String := ⟨s.data.map toLowerJS⟩

/-- Uppercase a whole string (ASCII case map). -/
def upperStr (s : String) : String := ⟨s.data.map toUpperJS⟩

/-- The JS whitespace set used by `trim` and the `\s` character class:
ASCII whitespace, NBSP, BOM, the Unicode `Zs` space separators and the two
line separators. -/
def isJSWhitespace (c : Char) : Bool :=
  let n := c.toNat
  n = 32 || n = 9 || n = 10 || n = 11 || n = 12 || n = 13 ||
    n = 0xA0 || n = 0x1680 || (0x2000 ≤ n && n ≤ 0x200A) ||
    n = 0x2028 || n = 0x2029 || n = 0x202F || n = 0x205F || n = 0x3000 || n = 0xFEFF

/-- `String.prototype.trim`. -/
def trimJS (s : String) : String :=
  ⟨((s.data.dropWhile isJSWhitespace).reverse.dropWhile isJSWhitespace).reverse⟩

/-- `replace(/\.+$/, '')`: remove every trailing dot. -/
def dropTrailingDots (s : String) : String :=
  ⟨(s.data.reverse.dropWhile (fun c => c = '.')).reverse⟩

/-- `String.prototype.startsWith`. -/
def startsWithStr (p s : String) : Bool := p.data.isPrefixOf s.data

/-- `String.prototype.endsWith`. -/
def endsWithStr (p s : String) : Bool := p.data.isSuffixOf s.data

/-- Occurrence of `p` as a contiguous sublist of `l`. -/
def containsSubList (p : List Char) : List Char → Bool
  | [] => p.isPrefixOf []
  | c :: rest => p.isPrefixOf (c :: rest) || containsSubList p rest

/-- `String.prototype.includes`. -/
def containsStr (p s : String) : Bool := containsSubList p.data s.data

/-- `startsWith` against any member of a list of literal alternatives (the
shape of the anchored alternation regexes `^(p1|p2|...)` in the source). -/
def startsWithAny (ps : List String) (s : String) : Bool :=
  ps.any (fun p => startsWithStr p s)

/-- `String.prototype.split('.')` (on the character list). -/
def splitOnDot : List Char → List (List Char)
  | [] => [[]]
  | '.' :: rest => [] :: splitOnDot rest
  | c :: rest =>
    match splitOnDot rest with
    | [] => [[c]]
    | l :: ls => (c :: l) :: ls

/-- `parseInt(s, 10)` on a string of decimal digit characters (the only
shape the source ever feeds it). -/
def parseIntChars (l : List Char) : Nat :=
  l.foldl (fun a c => 10 * a + (c.toNat - 48)) 0

/-! ## Character classes -/

def isDigitC (c : Char) : Bool := 48 ≤ c.toNat && c.toNat ≤ 57

def isLowerC (c : Char) : Bool := 97 ≤ c.toNat && c.toNat ≤ 122

def isUpperC (c : Char) : Bool := 65 ≤ c.toNat && c.toNat ≤ 90

def isAsciiLetter (c : Char) : Bool := isLowerC c || isUpperC c

def isAlnumC (c : Char) : Bool := isDigitC c || isAsciiLetter c

/-- `[a-f0-9]` (lowercase hex). -/
def isLowerHex (c : Char) : Bool := isDigitC c || (97 ≤ c.toNat && c.toNat ≤ 102)

/-- `[a-fA-F0-9]` (hex, either case). -/
def isHexAny (c : Char) : Bool :=
  isDigitC c || (97 ≤ c.toNat && c.toNat ≤ 102) || (65 ≤ c.toNat && c.toNat ≤ 70)

/-- `[a-z0-9]`. -/
def isLowerAlnum (c : Char) : Bool := isDigitC c || isLowerC c

/-- The base58 alphabet `[1-9A-HJ-NP-Za-km-z]` (digits without `0`,
uppercase without `I`,`O`, lowercase without `l`). -/
def isBase58 (c : Char) : Bool :=
  let n := c.toNat
  (49 ≤ n && n ≤ 57) ||
    (65 ≤ n && n ≤ 72) || (74 ≤ n && n ≤ 78) || (80 ≤ n && n ≤ 90) ||
    (97 ≤ n && n ≤ 107) || (109 ≤ n && n ≤ 122)

/-- `[A-Z2-7]` (RFC 4648 base32). -/
def isB32 (c : Char) : Bool :=
  (65 ≤ c.toNat && c.toNat ≤ 90) || (50 ≤ c.toNat && c.toNat ≤ 55)

/-- `[a-zA-HJ-NP-Z0-9]`: the class used by the two native-segwit patterns
(full lowercase, uppercase without `I`,`O`, all digits). -/
def isSegwitChar (c : Char) : Bool :=
  let n := c.toNat
  (97 ≤ n && n ≤ 122) || (48 ≤ n && n ≤ 57) ||
    (65 ≤ n && n ≤ 72) || (74 ≤ n && n ≤ 78) || (80 ≤ n && n ≤ 90)

/-- The bech32 charset literal `[qpzry9x8gf2tvdw0s3jn54khce6mua7l]` of the
Bitcoin Cash patterns. -/
def isBchChar (c : Char) : Bool :=
  "qpzry9x8gf2tvdw0s3jn54khce6mua7l".data.contains c

/-! ## The pattern registry (`patterns` in the source) -/

namespace patterns

/-- `/^0x[a-f0-9]{40}$/i`. -/
def evm (s : String) : Bool :=
  match s.data with
  | '0' :: x :: rest => (x = 'x' || x = 'X') && rest.length = 40 && rest.all isHexAny
  | _ => false

/-- `/^(cosmos|osmo|axelar|juno|stars)1[a-zA-Z0-9]{38}$/`, returning the
captured chain name when the pattern matches (the source reads the capture
group for the `chain` metadata). -/
def atomMatch (s : String) : Option String :=
  match ["cosmos", "osmo", "axelar", "juno", "stars"].find?
      (fun p => startsWithStr (p ++ "1") s) with
  | some p =>
    let rest := s.data.drop (p.length + 1)
    if rest.length = 38 && rest.all isAlnumC then some p else none
  | none => none

def atom (s : String) : Bool := (atomMatch s).isSome

/-- `/^[1-9A-HJ-NP-Za-km-z]{32,44}$/`. -/
def sol (s : String) : Bool :=
  32 ≤ s.data.length && s.data.length ≤ 44 && s.data.all isBase58

/-- `/^addr1[a-z0-9]{98}$/`. -/
def adaMainnet (s : String) : Bool :=
  startsWithStr "addr1" s &&
    (s.data.drop 5).length = 98 && (s.data.drop 5).all isLowerAlnum

/-- `/^addr_test1[a-z0-9]{98}$/`. -/
def adaTestnet (s : String) : Bool :=
  startsWithStr "addr_test1" s &&
    (s.data.drop 10).length = 98 && (s.data.drop 10).all isLowerAlnum

/-- `/^stake1[a-z0-9]{53}$/`. -/
def adaStake (s : String) : Bool :=
  startsWithStr "stake1" s &&
    (s.data.drop 6).length = 53 && (s.data.drop 6).all isLowerAlnum

/-- `/^stake_test1[a-z0-9]{53}$/`. -/
def adaStakeTestnet (s : String) : Bool :=
  startsWithStr "stake_test1" s &&
    (s.data.drop 11).length = 53 && (s.data.drop 11).all isLowerAlnum

/-- `/^[A-Z2-7]{58}$/`. -/
def algo (s : String) : Bool := s.data.length = 58 && s.data.all isB32

/-- `/^G[A-Z2-7]{55}$/`. -/
def xlm (s : String) : Bool :=
  match s.data with
  | 'G' :: rest => rest.length = 55 && rest.all isB32
  | _ => false

/-- `/^(cb|ce|ab)[0-9]{2}[a-f0-9]{40}$/i`. -/
def ican (s : String) : Bool :=
  match s.data with
  | c1 :: c2 :: d1 :: d2 :: rest =>
    ((toLowerJS c1 = 'c' && (toLowerJS c2 = 'b' || toLowerJS c2 = 'e')) ||
      (toLowerJS c1 = 'a' && toLowerJS c2 = 'b')) &&
      isDigitC d1 && isDigitC d2 && rest.length = 40 && rest.all isHexAny
  | _ => false

/-- `/^[1-9A-HJ-NP-Za-km-z]{47,48}$/`. -/
def dot (s : String) : Bool :=
  47 ≤ s.data.length && s.data.length ≤ 48 && s.data.all isBase58

/-- `/^T[1-9A-HJ-NP-Za-km-z]{33}$/`. -/
def tron (s : String) : Bool :=
  match s.data with
  | 'T' :: rest => rest.length = 33 && rest.all isBase58
  | _ => false

/-- `/^[1][a-km-zA-HJ-NP-Z1-9]{25,34}$/` (the class is the base58 set). -/
def btcLegacy (s : String) : Bool :=
  match s.data with
  | '1' :: rest => 25 ≤ rest.length && rest.length ≤ 34 && rest.all isBase58
  | _ => false

/-- `/^[3][a-km-zA-HJ-NP-Z1-9]{25,34}$/`. -/
def btcSegwit (s : String) : Bool :=
  match s.data with
  | '3' :: rest => 25 ≤ rest.length && rest.length ≤ 34 && rest.all isBase58
  | _ => false

/-- `/^(bc1|tb1)[a-zA-HJ-NP-Z0-9]{25,89}$/`. -/
def btcNativeSegwit (s : String) : Bool :=
  (startsWithStr "bc1" s || startsWithStr "tb1" s) &&
    (let rest := s.data.drop 3
     25 ≤ rest.length && rest.length ≤ 89 && rest.all isSegwitChar)

/-- `/^L[1-9A-HJ-NP-Za-km-z]{26,34}$/`. -/
def ltcLegacy (s : String) : Bool :=
  match s.data with
  | 'L' :: rest => 26 ≤ rest.length && rest.length ≤ 34 && rest.all isBase58
  | _ => false

/-- `/^M[1-9A-HJ-NP-Za-km-z]{26,34}$/`. -/
def ltcSegwit (s : String) : Bool :=
  match s.data with
  | 'M' :: rest => 26 ≤ rest.length && rest.length ≤ 34 && rest.all isBase58
  | _ => false

/-- `/^(ltc1|tltc1)[a-zA-HJ-NP-Z0-9]{25,89}$/`.  The two alternatives are
mutually exclusive (`l` vs `t` at the first character), so the matched
alternative is determined by the first character as in the regex engine. -/
def ltcNativeSegwit (s : String) : Bool :=
  (startsWithStr "ltc1" s &&
    (let rest := s.data.drop 4
     25 ≤ rest.length && rest.length ≤ 89 && rest.all isSegwitChar)) ||
  (startsWithStr "tltc1" s &&
    (let rest := s.data.drop 5
     25 ≤ rest.length && rest.length ≤ 89 && rest.all isSegwitChar))

/-- `/^r[1-9A-HJ-NP-Za-km-z]{24,34}$/`. -/
def xrp (s : String) : Bool :=
  match s.data with
  | 'r' :: rest => 24 ≤ rest.length && rest.length ≤ 34 && rest.all isBase58
  | _ => false

/-- `/^(bitcoincash:)?[qpzry9x8gf2tvdw0s3jn54khce6mua7l]{42}$/`.  The
colon cannot belong to the character class, so the optional group matches
exactly when the string starts with the literal `bitcoincash:`. -/
def bchCashAddr (s : String) : Bool :=
  (startsWithStr "bitcoincash:" s &&
    (let rest := s.data.drop 12
     rest.length = 42 && rest.all isBchChar)) ||
  (s.data.length = 42 && s.data.all isBchChar)

/-- `/^[qp][qpzry9x8gf2tvdw0s3jn54khce6mua7l]{41}$/`. -/
def bchAddress (s : String) : Bool :=
  match s.data with
  | c :: rest => (c = 'q' || c = 'p') && rest.length = 41 && rest.all isBchChar
  | _ => false

end patterns

/-- The strict pattern at the top of `validateEVMChecksum`:
`/^0x[a-fA-F0-9]{40}$/` (case-sensitive `0x`). -/
def evmStrictPattern (s : String) : Bool :=
  match s.data with
  | '0' :: 'x' :: rest => rest.length = 40 && rest.all isHexAny
  | _ => false

/-- The Tron-like shape tested inside the Tron stage:
`/^[A-Z][1-9A-HJ-NP-Za-km-z]{33}$/`. -/
def tronLikePattern (s : String) : Bool :=
  match s.data with
  | c :: rest => isUpperC c && rest.length = 33 && rest.all isBase58
  | _ => false

/-- The conflict-exclusion alternation used by both the Solana and the
Polkadot stages: `/^(cosmos|osmo|axelar|juno|stars|r|bc1|tb1|ltc1|tltc1)/`. -/
def solDotExclusions : List String :=
  ["cosmos", "osmo", "axelar", "juno", "stars", "r", "bc1", "tb1", "ltc1", "tltc1"]

/-- The prefix alternation of the Cardano invalid-format fallthrough:
`/^(addr1|addr_test1|stake1|stake_test1)/`. -/
def adaPrefixList : List String :=
  ["addr1", "addr_test1", "stake1", "stake_test1"]

/-! ## Keccak-256

Concrete model of the `keccak256` import from `ethereum-cryptography/keccak`
(Keccak with the original `0x01` domain padding, rate 1088, 256-bit output).
The state is a flat list of 25 lanes, index `i = x + 5*y`, each lane a
natural number below `2^64`. -/

/-- 64-bit rotate left. -/
def rotl64 (x n : Nat) : Nat :=
  ((x <<< (n % 64)) ||| (x >>> (64 - n % 64))) &&& 0xFFFFFFFFFFFFFFFF

/-- One step of the GF(2) linear feedback register from the Keccak
reference specification (polynomial `x^8 + x^6 + x^5 + x^4 + 1`), acting on
an 8-bit state. -/
def keccakLFSR (r : Nat) : Nat :=
  let r2 := r <<< 1
  if r2 &&& 0x100 = 0 then r2 else r2 ^^^ 0x171

/-- State of the register after `t` steps from the initial value 1. -/
def keccakLFSRIter : Nat → Nat
  | 0 => 1
  | t + 1 => keccakLFSR (keccakLFSRIter t)

/-- Bit `rc(t)` of the round-constant definition. -/
def keccakRCBit (t : Nat) : Nat := keccakLFSRIter (t % 255) &&& 1

/-- Round constant of round `ir`: bit `rc(j + 7 ir)` is placed at bit
position `2^j - 1` of the lane. -/
def keccakRCConst (ir : Nat) : Nat :=
  (List.range 7).foldl
    (fun acc j => acc ||| (keccakRCBit (j + 7 * ir) <<< ((1 <<< j) - 1))) 0

/-- The 24 round constants of Keccak-f[1600]. -/
def keccakRC : List Nat := (List.range 24).map keccakRCConst

/-- The rho/pi lane walk of the Keccak reference specification: starting
from lane `(1, 0)`, step `t` assigns rotation offset `(t+1)(t+2)/2 mod 64`
to the current lane and moves to `(y, (2x+3y) mod 5)`.  Produces
flat-index / offset pairs (lane index `x + 5*y`). -/
def keccakRhoWalk : Nat → Nat → Nat → Nat → List (Nat × Nat)
  | 0, _, _, _ => []
  | fuel + 1, t, x, y =>
    (x + 5 * y, ((t + 1) * (t + 2) / 2) % 64) ::
      keccakRhoWalk fuel (t + 1) y ((2 * x + 3 * y) % 5)

/-- The rho rotation offsets, flat at index `x + 5*y` (lane `(0,0)` is not
visited by the walk and keeps offset 0). -/
def keccakRot : List Nat :=
  (List.range 25).map (fun i => ((keccakRhoWalk 24 0 1 0).lookup i).getD 0)

/-- One round of Keccak-f[1600] (theta, rho, pi, chi, iota). -/
def keccakRound (A : List Nat) (rc : Nat) : List Nat :=
  let C := (List.range 5).map (fun x =>
    A.getD x 0 ^^^ A.getD (x + 5) 0 ^^^ A.getD (x + 10) 0 ^^^
      A.getD (x + 15) 0 ^^^ A.getD (x + 20) 0)
  let D := (List.range 5).map (fun x =>
    C.getD ((x + 4) % 5) 0 ^^^ rotl64 (C.getD ((x + 1) % 5) 0) 1)
  let A1 := (List.range 25).map (fun i => A.getD i 0 ^^^ D.getD (i % 5) 0)
  -- pi sends lane (x, y) to (y, (2x+3y) % 5); the source of flat index
  -- (X, Y) is therefore (x, y) = ((X + 3Y) % 5, X).
  let B := (List.range 25).map (fun j =>
    let src := (j % 5 + 3 * (j / 5)) % 5 + 5 * (j % 5)
    rotl64 (A1.getD src 0) (keccakRot.getD src 0))
  let A2 := (List.range 25).map (fun j =>
    let row := 5 * (j / 5)
    B.getD j 0 ^^^
      ((B.getD ((j % 5 + 1) % 5 + row) 0 ^^^ 0xFFFFFFFFFFFFFFFF) &&&
        B.getD ((j % 5 + 2) % 5 + row) 0))
  match A2 with
  | a0 :: rest => (a0 ^^^ rc) :: rest
  | [] => []

/-- The full Keccak-f[1600] permutation. -/
def keccakF (A : List Nat) : List Nat := keccakRC.foldl keccakRound A

/-- Keccak multi-rate padding `0x01 .. 0x80` to a multiple of the
136-byte rate. -/
def keccakPad (msg : List Nat) : List Nat :=
  let padlen := 136 - msg.length % 136
  if padlen = 1 then msg ++ [0x81]
  else msg ++ [0x01] ++ List.replicate (padlen - 2) 0 ++ [0x80]

/-- A lane from eight little-endian bytes. -/
def laneOfBytes (bs : List Nat) : Nat := bs.foldr (fun b acc => b + 256 * acc) 0

/-- XOR one 136-byte block into the state and permute. -/
def absorbBlock (A block : List Nat) : List Nat :=
  keccakF ((List.range 25).map (fun i =>
    A.getD i 0 ^^^ (if i < 17 then laneOfBytes ((block.drop (8 * i)).take 8) else 0)))

/-- Absorb a padded message block by block.  The fuel argument only bounds
the recursion; every step consumes 136 bytes, so fuel equal to the message
length is always sufficient (see `absorbAll`). -/
def absorbAux : Nat → List Nat → List Nat → List Nat
  | 0, A, _ => A
  | fuel + 1, A, bs =>
    if bs.length = 0 then A
    else absorbAux fuel (absorbBlock A (bs.take 136)) (bs.drop 136)

/-- Absorb a padded message (length a multiple of 136). -/
def absorbAll (A : List Nat) (bs : List Nat) : List Nat := absorbAux bs.length A bs

/-- Eight little-endian bytes of a lane. -/
def laneBytes (v : Nat) : List Nat :=
  (List.range 8).map (fun i => (v >>> (8 * i)) &&& 255)

/-- `keccak256` digest (32 bytes) of a byte sequence. -/
def keccak256 (msg : List Nat) : List Nat :=
  let A := absorbAll (List.replicate 25 0) (keccakPad msg)
  ((List.range 4).map (fun i => laneBytes (A.getD i 0))).flatten

/-- The 64 hex nibble values of the digest, in the order the hex string
`bytesToHex` produces them (high nibble of each byte first).  `addressHash[i]`
followed by `parseInt(·, 16)` in the source reads exactly nibble `i`. -/
def keccak256Nibbles (msg : List Nat) : List Nat :=
  ((keccak256 msg).map (fun b => [b / 16, b % 16])).flatten

/-- `new TextEncoder().encode` on the ASCII strings the source hashes. -/
def strBytes (s : String) : List Nat := s.data.map Char.toNat

/-! ## The EIP-55 checksum validator (`validateEVMChecksum`) -/

/-- `validateEVMChecksum` from the source: the strict shape test, the
skip-when-single-cased shortcut, and the per-position case check against
the keccak-256 digest of the lowercased 40-character body. -/
def validateEVMChecksum (address : String) (forceValidation : Bool) : Bool :=
  if !(evmStrictPattern address) then false
  else if !forceValidation &&
      (address = lowerStr address || address = upperStr address) then true
  else
    let stripAddress := address.data.drop 2
    let addressHash := keccak256Nibbles (strBytes (lowerStr ⟨stripAddress⟩))
    (addressHash.zip stripAddress).all (fun p =>
      !((decide (p.1 > 7) && !(toUpperJS p.2 = p.2)) ||
        (decide (p.1 ≤ 7) && !(toLowerJS p.2 = p.2))))

/-! ## The mod-97 checksum validator (`validateICANChecksum`) -/

/-- Letter-to-numeral map inside `validateICANChecksum`: an uppercase
letter becomes the decimal digits of `code - 65 + 10`, any other character
stays itself. -/
def icanMapChar (c : Char) : List Char :=
  if 65 ≤ c.toNat && c.toNat ≤ 90 then (Nat.repr (c.toNat - 65 + 10)).data else [c]

/-- The converted digit string: uppercase, move the first four characters
to the end, and expand letters through `icanMapChar`. -/
def icanDigits (address : String) : List Char :=
  let u := address.data.map toUpperJS
  ((u.drop 4 ++ u.take 4).map icanMapChar).flatten

/-- Decimal length of a remainder below 100 is at most 2. -/
theorem reprLenLe {n : Nat} (h : n < 100) : (Nat.repr n).data.length ≤ 2 := by
  revert h
  revert n
  decide

/-- One pass of the 9-digit-chunk reduction loop of `validateICANChecksum`:
while more than two characters remain, replace the leading block of (up to)
nine digits by the decimal digits of its value mod 97.  The fuel argument
only bounds the recursion; the remainder shrinks at every step, so fuel
equal to the initial length always reaches the `length ≤ 2` exit (proved in
`icanLoop_length_le`). -/
def icanLoopAux : Nat → List Char → List Char
  | 0, r => r
  | fuel + 1, r =>
    if r.length > 2 then
      icanLoopAux fuel ((Nat.repr (parseIntChars (r.take 9) % 97)).data ++ r.drop 9)
    else r

/-- The `while (remainder.length > 2)` loop of `validateICANChecksum`. -/
def icanLoop (r : List Char) : List Char := icanLoopAux r.length r

/-- The fuel given to `icanLoopAux` is sufficient: the loop really runs to
completion, leaving at most two characters, exactly as the JS `while` loop. -/
theorem icanLoop_length_le (r : List Char) : (icanLoop r).length ≤ 2 := by
  suffices h : ∀ fuel r', List.length r' ≤ fuel + 2 → (icanLoopAux fuel r').length ≤ 2 by
    exact h r.length r (by omega)
  intro fuel
  induction fuel with
  | zero => intro r' h'; simpa [icanLoopAux] using h'
  | succ n ih =>
    intro r' h'
    by_cases hl : r'.length > 2
    · have h1 : (Nat.repr (parseIntChars (r'.take 9) % 97)).data.length ≤ 2 :=
        reprLenLe (Nat.lt_of_lt_of_le (Nat.mod_lt _ (by omega)) (by omega))
      simp only [icanLoopAux, if_pos hl]
      apply ih
      simp only [List.length_append, List.length_drop]
      omega
    · simp only [icanLoopAux, if_neg hl]
      omega

/-- `validateICANChecksum` from the source. -/
def validateICANChecksum (address : String) : Bool :=
  parseIntChars (icanLoop (icanDigits address)) % 97 = 1

/-- The big-integer reading of the converted digit string: the number the
spec says the checksum reduces modulo 97. -/
def icanNumber (address : String) : Nat := parseIntChars (icanDigits address)

/-! ## Data model -/

/-- A metadata value (the source stores heterogeneous values in a
`Record<string, any>`). -/
inductive MetaVal where
  | s (v : String)
  | b (v : Bool)
  | n (v : Int)
  | strList (v : List String)
  | undef
deriving DecidableEq, Repr

/-- The `NetworkInfo` result record. -/
structure NetworkInfo where
  network : Option String
  isValid : Bool
  description : Option String := none
  metadata : Option (List (String × MetaVal)) := none
deriving DecidableEq, Repr

/-- An `nsDomains` configuration-object entry.  The numeric limits are
integers (the dynamic `Number.isInteger` check of the source is rendered
vacuous by the typed embedding). -/
structure NsDomainConfig where
  domain : String
  maxTotalLength : Option Int := none
  maxLabelLength : Option Int := none
  emojiAllowed : Option Bool := none
deriving DecidableEq, Repr

/-- An `nsDomains` entry: a bare domain string or a configuration object. -/
inductive NsDomainEntry where
  | str (s : String)
  | cfg (c : NsDomainConfig)
deriving DecidableEq, Repr

/-- A normalized entry (`NormalizedNsDomainConfig` in the source). -/
structure NormalizedNsDomainConfig where
  domain : String
  maxTotalLength : Option Int := none
  maxLabelLength : Option Int := none
  emojiAllowed : Option Bool := none
  normalizedDomain : String
deriving DecidableEq, Repr

/-- `ValidationOptions`.  `none` stands for an absent (or, for `network`,
also a `null`) field; the source treats the two identically via `??` and
`!== undefined && !== null`. -/
structure ValidationOptions where
  network : Option (List String) := none
  testnet : Option Bool := none
  enabledLegacy : Option Bool := none
  emojiAllowed : Option Bool := none
  nsDomains : Option (List NsDomainEntry) := none
deriving DecidableEq, Repr

/-- The default value of the `options` parameter of `validateWalletAddress`. -/
def defaultOptions : ValidationOptions :=
  { network := none, testnet := some false, enabledLegacy := some true,
    emojiAllowed := some true, nsDomains := some [] }

/-- The `address` argument.  The source checks `typeof address !== 'string'`
at runtime; `nonString` stands for every non-string argument. -/
inductive AddressInput where
  | str (s : String)
  | nonString
deriving DecidableEq, Repr

/-- The two black-box services consumed by the validator: whether
`bs58check.decode` succeeds (it throws on a bad checksum), and the two
Unicode character properties used by the NS-domain grammar.  No ASCII
character has either property. -/
structure Env where
  decodeOk : String → Bool
  extPict : Char → Bool
  emojiPres : Char → Bool

/-- Concrete environment for closed evaluations on ASCII inputs: both
emoji properties are `false` on every ASCII character (correct there), and
the base58 payload decoder is never consulted by those evaluations. -/
def asciiEnv : Env := ⟨fun _ => false, fun _ => false, fun _ => false⟩

/-! ## `validateOptions` -/

/-- The per-entry checks of the `nsDomains` loop in `validateOptions`, in
source order.  The dynamic type checks (`network` an array of strings,
booleans boolean, numbers integral) are rendered vacuous by the typed
embedding; the value checks remain. -/
def checkNsEntries : List NsDomainEntry → Option NetworkInfo
  | [] => none
  | .str s :: rest =>
    if trimJS s = "" then
      some { network := none, isValid := false,
             description := some "Invalid options: nsDomain strings must be non-empty" }
    else checkNsEntries rest
  | .cfg c :: rest =>
    if trimJS c.domain = "" then
      some { network := none, isValid := false,
             description := some "Invalid options: nsDomain objects must include a domain string" }
    else if c.maxTotalLength.elim false (fun t => t ≤ 0) then
      some { network := none, isValid := false,
             description := some "Invalid options: nsDomain maxTotalLength must be a positive integer" }
    else if c.maxLabelLength.elim false (fun l => l ≤ 0) then
      some { network := none, isValid := false,
             description := some "Invalid options: nsDomain maxLabelLength must be a positive integer" }
    else if (match c.maxLabelLength, c.maxTotalLength with
             | some l, some t => decide (l > t)
             | _, _ => false) then
      some { network := none, isValid := false,
             description := some "Invalid options: nsDomain maxLabelLength cannot exceed maxTotalLength" }
    else checkNsEntries rest

/-- `validateOptions`: `none` means "no error". -/
def validateOptions (opts : ValidationOptions) : Option NetworkInfo :=
  match opts.nsDomains with
  | none => none
  | some entries => checkNsEntries entries

/-! ## NS-domain machinery -/

/-- Normalization of an `nsDomains` entry performed at the top of
`validateWalletAddress`: trim, strip trailing dots, lowercase. -/
def normalizeEntry (e : NsDomainEntry) : NormalizedNsDomainConfig :=
  let base : NsDomainConfig := match e with
    | .str s => { domain := s }
    | .cfg c => c
  let trimmed := dropTrailingDots (trimJS base.domain)
  { domain := trimmed, maxTotalLength := base.maxTotalLength,
    maxLabelLength := base.maxLabelLength, emojiAllowed := base.emojiAllowed,
    normalizedDomain := lowerStr trimmed }

/-- A character allowed in a non-final NS-domain label:
`[a-zA-Z0-9-\p{Emoji_Presentation}\p{Extended_Pictographic}]`. -/
def nsLabelChar (env : Env) (c : Char) : Bool :=
  isAlnumC c || c = '-' || env.emojiPres c || env.extPict c

/-- The NS-domain grammar
`/^[...]+(?:\.[...]+)*\.[a-zA-Z]+$/u`: at least two dot-separated labels,
every label nonempty, non-final labels over the extended class, the final
label ASCII letters only. -/
def nsValidPattern (env : Env) (s : String) : Bool :=
  let labels := splitOnDot s.data
  decide (2 ≤ labels.length) &&
    labels.dropLast.all (fun lb => !lb.isEmpty && lb.all (nsLabelChar env)) &&
    (labels.getLastD []).length != 0 && (labels.getLastD []).all isAsciiLetter

/-- The body of the NS-domain stage once a configured domain has matched
(source lines 289-375); every branch of this block returns, so it is a
total function into `NetworkInfo`. -/
def nsMatched (env : Env) (globalEmojiAllowed : Bool)
    (cfg : NormalizedNsDomainConfig) (address addressForMatching : String) :
    NetworkInfo :=
  let maxTotalLength : Int := cfg.maxTotalLength.getD 255
  let maxLabelLength : Int := cfg.maxLabelLength.getD 63
  let emojiAllowedForDomain := cfg.emojiAllowed.getD globalEmojiAllowed
  if (addressForMatching.data.length : Int) > maxTotalLength then
    { network := some "ns", isValid := false,
      description := some ("NS domain exceeds maximum total length of " ++
        toString maxTotalLength ++ " characters") }
  else
    let labels := splitOnDot addressForMatching.data
    if labels.any (fun lb => (lb.length : Int) > maxLabelLength) then
      { network := some "ns", isValid := false,
        description := some ("NS domain label exceeds maximum length of " ++
          toString maxLabelLength ++ " characters") }
    else if !(address = trimJS address) || containsStr ".." address ||
        address.data.any isJSWhitespace || startsWithStr "." address ||
        endsWithStr "." address then
      { network := some "ns", isValid := false,
        description := some "Invalid NS domain format" }
    else if !(nsValidPattern env address) then
      { network := some "ns", isValid := false,
        description := some "Invalid NS domain format" }
    else
      let containsEmojis := address.data.any env.extPict
      if containsEmojis && !emojiAllowedForDomain then
        { network := some "ns", isValid := false,
          description := some (if cfg.emojiAllowed.isSome then
            "Emoji characters are disabled for NS domain " ++ cfg.domain
          else "Emoji characters are disabled in NS domains") }
      else
        let domainLabelCount := (splitOnDot cfg.normalizedDomain.data).length
        let isSubdomain := decide (labels.length - domainLabelCount > 1)
        { network := some "ns", isValid := true,
          description := some "Name Service domain",
          metadata := some [("format", .s cfg.domain),
            ("isSubdomain", .b isSubdomain),
            ("isEmoji", .b containsEmojis),
            ("maxTotalLength", .n maxTotalLength),
            ("maxLabelLength", .n maxLabelLength),
            ("emojiAllowed", .b emojiAllowedForDomain)] }

/-- The NS-domain validation stage (runs first, only when at least one
domain is configured; source lines 274-376). -/
def nsStage (env : Env) (globalEmojiAllowed : Bool)
    (cfgs : List NormalizedNsDomainConfig) (address : String) :
    Option NetworkInfo :=
  if cfgs.length = 0 then none
  else
    let addressForMatching := lowerStr (dropTrailingDots (trimJS address))
    match cfgs.find? (fun c =>
        addressForMatching = c.normalizedDomain ||
          endsWithStr ("." ++ c.normalizedDomain) addressForMatching) with
    | none => none
    | some cfg => some (nsMatched env globalEmojiAllowed cfg address addressForMatching)

/-! ## The network allow-list gate and the recognizer stages -/

/-- `enabledNetwork`: an empty allow-list enables everything, otherwise at
least one of the stage's identifiers must be listed. -/
def enabledNetwork (networks allowedNetworks : List String) : Bool :=
  if allowedNetworks.length = 0 then true
  else networks.any (fun n => allowedNetworks.contains n)

/-- Chunks of up to four characters (`match(/.{1,4}/g)`; the matched ICAN
addresses contain no line terminators, where `.` would differ).  The fuel
argument only bounds the recursion; fuel equal to the length suffices. -/
def chunksOf4Aux : Nat → List Char → List (List Char)
  | 0, _ => []
  | _, [] => []
  | fuel + 1, l => l.take 4 :: chunksOf4Aux fuel (l.drop 4)

/-- The ICAN `printFormat`: uppercase, grouped in blocks of four joined by
non-breaking spaces; the `|| address.toUpperCase()` fallback fires only on
the empty string (where `match` returns `null`). -/
def icanPrintFormat (address : String) : String :=
  let u := upperStr address
  if u.data.length = 0 then u
  else String.intercalate "\u00A0"
    ((chunksOf4Aux u.data.length u.data).map (fun l => (⟨l⟩ : String)))

/-- The EVM stage (source lines 380-408): gated on a `0x`/`0X` start and
the evm alias family; reports a format error for other `0x...` shapes. -/
def evmStage (allowedNetworks : List String) (force : Bool) (address : String) :
    Option NetworkInfo :=
  if startsWithStr "0x" (lowerStr address) &&
      enabledNetwork ["evm", "eth", "base", "pol"] allowedNetworks then
    if !(patterns.evm address) then
      some { network := some "evm", isValid := false,
             description := some "Invalid EVM address format" }
    else
      let isChecksumValid := validateEVMChecksum address force
      some { network := some "evm", isValid := isChecksumValid,
             description := some "Ethereum Virtual Machine compatible address (Ethereum, Polygon, BSC, etc.)",
             metadata := some [("format", .s "hex"),
               ("isChecksumValid", .b isChecksumValid)] }
  else none

/-- The ICAN stage (source lines 410-451).  Note `startsWith('ab')` and
`startsWith('ce')` are case-sensitive although the pattern is not. -/
def icanStage (testnetOpt : Option Bool) (allowedNetworks : List String)
    (address : String) : Option NetworkInfo :=
  if enabledNetwork ["ican", "xcb", "xce", "xab"] allowedNetworks &&
      patterns.ican address then
    let isTestnet := startsWithStr "ab" address
    if isTestnet && !(testnetOpt.getD false) then
      some { network := some "xab", isValid := false,
             description := some "Testnet address not allowed" }
    else
      let isEnterprise := startsWithStr "ce" address
      let isChecksumValid := validateICANChecksum address
      let pfx := lowerStr ⟨address.data.take 2⟩
      some { network := some ("x" ++ pfx), isValid := isChecksumValid,
             description := some "ICAN address for Core blockchain networks",
             metadata := some [("format", .s "ican"),
               ("isChecksumValid", .b isChecksumValid),
               ("codename", if pfx = "cb" then .s "Mainnet"
                 else if pfx = "ce" then .s "Koliba"
                 else if pfx = "ab" then .s "Devin" else .undef),
               ("isTestnet", .b isTestnet),
               ("isEnterprise", .b isEnterprise),
               ("printFormat", .s (icanPrintFormat address)),
               ("electronicFormat", .s (upperStr address))] }
  else none

/-- The Bitcoin stage (source lines 454-520): legacy (behind
`options.enabledLegacy`, an undefined flag being falsy), segwit, then
native segwit with its testnet gate. -/
def btcStage (env : Env) (testnetOpt enabledLegacyOpt : Option Bool)
    (allowedNetworks : List String) (address : String) : Option NetworkInfo :=
  if enabledNetwork ["btc"] allowedNetworks then
    if enabledLegacyOpt.getD false && patterns.btcLegacy address then
      if env.decodeOk address then
        some { network := some "btc", isValid := true,
               description := some "Bitcoin Legacy address",
               metadata := some [("format", .s "Legacy"),
                 ("isTestnet", .b false),
                 ("compatibleWith", .strList ["bch"])] }
      else
        some { network := some "btc", isValid := false,
               description := some "Invalid Bitcoin Legacy address" }
    else if patterns.btcSegwit address then
      if env.decodeOk address then
        some { network := some "btc", isValid := true,
               description := some "Bitcoin SegWit address",
               metadata := some [("format", .s "SegWit"), ("isTestnet", .b false)] }
      else
        some { network := some "btc", isValid := false,
               description := some "Invalid Bitcoin SegWit address" }
    else if patterns.btcNativeSegwit address then
      let isTestnet := startsWithStr "tb1" address
      if isTestnet && !(testnetOpt.getD false) then
        some { network := some "btc", isValid := false,
               description := some "Testnet address not allowed" }
      else
        some { network := some "btc", isValid := true,
               description := some "Bitcoin Native SegWit address",
               metadata := some [("format", .s "Native SegWit"),
                 ("isTestnet", .b isTestnet)] }
    else none
  else none

/-- The Litecoin stage (source lines 523-588), structurally identical to
the Bitcoin stage with its own patterns and `tltc1` testnet check. -/
def ltcStage (env : Env) (testnetOpt enabledLegacyOpt : Option Bool)
    (allowedNetworks : List String) (address : String) : Option NetworkInfo :=
  if enabledNetwork ["ltc"] allowedNetworks then
    if enabledLegacyOpt.getD false && patterns.ltcLegacy address then
      if env.decodeOk address then
        some { network := some "ltc", isValid := true,
               description := some "Litecoin Legacy address",
               metadata := some [("format", .s "Legacy"), ("isTestnet", .b false)] }
      else
        some { network := some "ltc", isValid := false,
               description := some "Invalid Litecoin Legacy address" }
    else if patterns.ltcSegwit address then
      if env.decodeOk address then
        some { network := some "ltc", isValid := true,
               description := some "Litecoin SegWit address",
               metadata := some [("format", .s "SegWit"), ("isTestnet", .b false)] }
      else
        some { network := some "ltc", isValid := false,
               description := some "Invalid Litecoin SegWit address" }
    else if patterns.ltcNativeSegwit address then
      let isTestnet := startsWithStr "tltc1" address
      if isTestnet && !(testnetOpt.getD false) then
        some { network := some "ltc", isValid := false,
               description := some "Testnet address not allowed" }
      else
        some { network := some "ltc", isValid := true,
               description := some "Litecoin Native SegWit address",
               metadata := some [("format", .s "Native SegWit"),
                 ("isTestnet", .b isTestnet)] }
    else none
  else none

/-- The Cosmos stage (source lines 591-605). -/
def atomStage (allowedNetworks : List String) (address : String) :
    Option NetworkInfo :=
  if enabledNetwork ["atom"] allowedNetworks then
    match patterns.atomMatch address with
    | some pfx =>
      some { network := some "atom", isValid := true,
             description := some "Cosmos ecosystem address",
             metadata := some [("chain", .s pfx), ("format", .s "bech32")] }
    | none => none
  else none

/-- The Cardano stage (source lines 608-691): four fixed-length patterns,
testnet gates, then a recognized-prefix invalid-format fallthrough. -/
def adaStage (testnetOpt : Option Bool) (allowedNetworks : List String)
    (address : String) : Option NetworkInfo :=
  if enabledNetwork ["ada"] allowedNetworks then
    if patterns.adaMainnet address then
      some { network := some "ada", isValid := true,
             description := some "Cardano Shelley mainnet address",
             metadata := some [("format", .s "bech32"), ("era", .s "shelley"),
               ("type", .s "payment"), ("isTestnet", .b false)] }
    else if patterns.adaTestnet address then
      if !(testnetOpt.getD false) then
        some { network := some "ada", isValid := false,
               description := some "Testnet address not allowed" }
      else
        some { network := some "ada", isValid := true,
               description := some "Cardano Shelley testnet address",
               metadata := some [("format", .s "bech32"), ("era", .s "shelley"),
                 ("type", .s "payment"), ("isTestnet", .b true)] }
    else if patterns.adaStake address then
      some { network := some "ada", isValid := true,
             description := some "Cardano stake address",
             metadata := some [("format", .s "bech32"), ("era", .s "shelley"),
               ("type", .s "stake"), ("isTestnet", .b false)] }
    else if patterns.adaStakeTestnet address then
      if !(testnetOpt.getD false) then
        some { network := some "ada", isValid := false,
               description := some "Testnet address not allowed" }
      else
        some { network := some "ada", isValid := true,
               description := some "Cardano stake testnet address",
               metadata := some [("format", .s "bech32"), ("era", .s "shelley"),
                 ("type", .s "stake"), ("isTestnet", .b true)] }
    else if startsWithAny adaPrefixList address then
      some { network := some "ada", isValid := false,
             description := some "Invalid Cardano address format" }
    else none
  else none

/-- The Ripple stage (source lines 694-707). -/
def xrpStage (allowedNetworks : List String) (address : String) :
    Option NetworkInfo :=
  if enabledNetwork ["xrp"] allowedNetworks then
    if patterns.xrp address then
      some { network := some "xrp", isValid := true,
             description := some "Ripple address",
             metadata := some [("format", .s "base58"), ("isTestnet", .b false)] }
    else none
  else none

/-- The Tron stage (source lines 710-733): claims every string starting
with `T` (and every Tron-like shape), valid or not. -/
def tronStage (testnetOpt : Option Bool) (allowedNetworks : List String)
    (address : String) : Option NetworkInfo :=
  if enabledNetwork ["trx", "tron"] allowedNetworks then
    if startsWithStr "T" address || tronLikePattern address then
      if patterns.tron address then
        some { network := some "trx", isValid := true,
               description := some "Tron address",
               metadata := some [("format", .s "base58"),
                 ("isTestnet", .b (testnetOpt.getD false))] }
      else
        some { network := some "trx", isValid := false,
               description := some "Invalid address format" }
    else none
  else none

/-- The Solana stage (source lines 736-759): the loose base58 pattern with
the reserved-prefix exclusion list. -/
def solStage (testnetOpt : Option Bool) (allowedNetworks : List String)
    (address : String) : Option NetworkInfo :=
  if enabledNetwork ["sol"] allowedNetworks then
    if patterns.sol address then
      if startsWithAny solDotExclusions address then
        some { network := some "sol", isValid := false,
               description := some "Invalid address format" }
      else
        some { network := some "sol", isValid := true,
               description := some "Solana address",
               metadata := some [("format", .s "base58"),
                 ("isTestnet", .b (testnetOpt.getD false))] }
    else none
  else none

/-- The Polkadot stage (source lines 762-785). -/
def dotStage (testnetOpt : Option Bool) (allowedNetworks : List String)
    (address : String) : Option NetworkInfo :=
  if enabledNetwork ["dot"] allowedNetworks then
    if patterns.dot address then
      if startsWithAny solDotExclusions address then
        some { network := some "dot", isValid := false,
               description := some "Invalid address format" }
      else
        some { network := some "dot", isValid := true,
               description := some "Polkadot address",
               metadata := some [("format", .s "ss58"),
                 ("isTestnet", .b (testnetOpt.getD false))] }
    else none
  else none

/-- The Algorand stage (source lines 788-800). -/
def algoStage (allowedNetworks : List String) (address : String) :
    Option NetworkInfo :=
  if enabledNetwork ["algo"] allowedNetworks && patterns.algo address then
    some { network := some "algo", isValid := true,
           description := some "Algorand address",
           metadata := some [("format", .s "base32")] }
  else none

/-- The Stellar stage (source lines 803-816). -/
def xlmStage (allowedNetworks : List String) (address : String) :
    Option NetworkInfo :=
  if enabledNetwork ["xlm"] allowedNetworks && patterns.xlm address then
    some { network := some "xlm", isValid := true,
           description := some "Stellar address",
           metadata := some [("format", .s "base32"), ("type", .s "public")] }
  else none

/-- The Bitcoin Cash stage (source lines 819-837): the prefix is stripped
from the lowercased string, and a failing inner pattern falls through to
"Unknown address format". -/
def bchStage (allowedNetworks : List String) (address : String) :
    Option NetworkInfo :=
  if enabledNetwork ["bch"] allowedNetworks && patterns.bchCashAddr address then
    let lower := lowerStr address
    let addr := if startsWithStr "bitcoincash:" lower then ⟨lower.data.drop 12⟩ else lower
    if patterns.bchAddress addr then
      some { network := some "bch", isValid := true,
             description := some "Bitcoin Cash CashAddr address",
             metadata := some [("format", .s "CashAddr"),
               ("isTestnet", .b (startsWithStr "p" addr)),
               ("printFormat", .s ("bitcoincash:" ++ addr)),
               ("electronicFormat", .s addr)] }
    else none
  else none

/-! ## The main entry point -/

/-- First `some` in a list of stage results. -/
def firstSome : List (Option NetworkInfo) → Option NetworkInfo
  | [] => none
  | some r :: _ => some r
  | none :: rest => firstSome rest

/-- The result for empty or non-string input. -/
def invalidInputResult : NetworkInfo :=
  { network := none, isValid := false, description := some "Invalid input" }

/-- The no-match fallthrough result. -/
def unknownResult : NetworkInfo :=
  { network := none, isValid := false, description := some "Unknown address format" }

/-- The recognizer stages in source priority order. -/
def stageList (env : Env) (opts : ValidationOptions) (force : Bool)
    (allowedNetworks : List String) (globalEmojiAllowed : Bool)
    (cfgs : List NormalizedNsDomainConfig) (address : String) :
    List (Option NetworkInfo) :=
  [nsStage env globalEmojiAllowed cfgs address,
   evmStage allowedNetworks force address,
   icanStage opts.testnet allowedNetworks address,
   btcStage env opts.testnet opts.enabledLegacy allowedNetworks address,
   ltcStage env opts.testnet opts.enabledLegacy allowedNetworks address,
   atomStage allowedNetworks address,
   adaStage opts.testnet allowedNetworks address,
   xrpStage allowedNetworks address,
   tronStage opts.testnet allowedNetworks address,
   solStage opts.testnet allowedNetworks address,
   dotStage opts.testnet allowedNetworks address,
   algoStage allowedNetworks address,
   xlmStage allowedNetworks address,
   bchStage allowedNetworks address]

/-- `validateWalletAddress` (source lines 227-854): options validation,
the empty / non-string input guard, then the priority chain, with the
"Unknown address format" fallthrough.  Nothing in the embedded pipeline
throws, so the outer `catch` branch is unreachable. -/
def validateWalletAddress (env : Env) (address : AddressInput)
    (options : ValidationOptions) (forceChecksumValidation : Bool) :
    NetworkInfo :=
  match validateOptions options with
  | some err => err
  | none =>
    let allowedNetworks := options.network.getD []
    let globalEmojiAllowed := options.emojiAllowed.getD true
    let cfgs := (options.nsDomains.getD []).map normalizeEntry
    match address with
    | .nonString => invalidInputResult
    | .str s =>
      if s = "" then invalidInputResult
      else
        (firstSome (stageList env options forceChecksumValidation
          allowedNetworks globalEmojiAllowed cfgs s)).getD unknownResult

/-! ## Helper lemmas: the shape of each stage's results -/

theorem firstSome_mem {l : List (Option NetworkInfo)} {r : NetworkInfo}
    (h : firstSome l = some r) : some r ∈ l := by
  induction l with
  | nil => cases h
  | cons o rest ih =>
    cases o with
    | some a => cases h; exact List.mem_cons_self _ _
    | none => exact List.mem_cons_of_mem _ (ih h)

theorem checkNsEntries_network {es : List NsDomainEntry} {e : NetworkInfo}
    (h : checkNsEntries es = some e) : e.network = none := by
  induction es with
  | nil => cases h
  | cons entry rest ih =>
    cases entry with
    | str s =>
      unfold checkNsEntries at h
      split at h
      · cases h; rfl
      · exact ih h
    | cfg c =>
      unfold checkNsEntries at h
      split at h
      · cases h; rfl
      · split at h
        · cases h; rfl
        · split at h
          · cases h; rfl
          · split at h
            · cases h; rfl
            · exact ih h

theorem validateOptions_network {opts : ValidationOptions} {e : NetworkInfo}
    (h : validateOptions opts = some e) : e.network = none := by
  unfold validateOptions at h
  split at h
  · cases h
  · exact checkNsEntries_network h

theorem nsStage_nil {env : Env} {ge : Bool} {s : String} :
    nsStage env ge [] s = none := rfl

theorem nsMatched_network (env : Env) (ge : Bool)
    (cfg : NormalizedNsDomainConfig) (address afm : String) :
    (nsMatched env ge cfg address afm).network = some "ns" := by
  simp only [nsMatched]
  repeat' split
  all_goals rfl

theorem nsStage_some {env : Env} {ge : Bool} {cfgs : List NormalizedNsDomainConfig}
    {s : String} {r : NetworkInfo} (h : nsStage env ge cfgs s = some r) :
    r.network = some "ns" := by
  unfold nsStage at h
  split at h
  · cases h
  · simp only [] at h
    split at h
    · cases h
    · cases h
      exact nsMatched_network _ _ _ _ _

theorem evmStage_some {allowed : List String} {force : Bool} {s : String}
    {r : NetworkInfo} (h : evmStage allowed force s = some r) :
    r.network = some "evm" ∧
      enabledNetwork ["evm", "eth", "base", "pol"] allowed = true := by
  unfold evmStage at h
  split at h
  case isTrue hc =>
    refine ⟨?_, (Bool.and_eq_true_iff.mp hc).2⟩
    split at h
    · cases h; rfl
    · cases h; rfl
  case isFalse => cases h

/-- The first two characters of an ICAN-matching string, lowercased, are
one of the three environment markers. -/
theorem ican_pfx {s : String} (h : patterns.ican s = true) :
    lowerStr ⟨s.data.take 2⟩ = "cb" ∨ lowerStr ⟨s.data.take 2⟩ = "ce" ∨
      lowerStr ⟨s.data.take 2⟩ = "ab" := by
  unfold patterns.ican at h
  match hd : s.data with
  | c1 :: c2 :: d1 :: d2 :: rest =>
    rw [hd] at h
    simp only [Bool.and_eq_true, Bool.or_eq_true, decide_eq_true_eq] at h
    have h1 := h.1.1.1.1
    rcases h1 with ⟨hc, hb | he⟩ | ⟨ha, hb⟩
    · left
      show (⟨[toLowerJS c1, toLowerJS c2]⟩ : String) = "cb"
      rw [hc, hb]
    · right; left
      show (⟨[toLowerJS c1, toLowerJS c2]⟩ : String) = "ce"
      rw [hc, he]
    · right; right
      show (⟨[toLowerJS c1, toLowerJS c2]⟩ : String) = "ab"
      rw [ha, hb]
  | [] => rw [hd] at h; cases h
  | [c1] => rw [hd] at h; cases h
  | [c1, c2] => rw [hd] at h; cases h
  | [c1, c2, c3] => rw [hd] at h; cases h

theorem icanStage_some {t : Option Bool} {allowed : List String} {s : String}
    {r : NetworkInfo} (h : icanStage t allowed s = some r) :
    (r.network = some "xcb" ∨ r.network = some "xce" ∨ r.network = some "xab") ∧
      enabledNetwork ["ican", "xcb", "xce", "xab"] allowed = true := by
  unfold icanStage at h
  split at h
  case isTrue hc =>
    obtain ⟨hen, hpat⟩ := Bool.and_eq_true_iff.mp hc
    refine ⟨?_, hen⟩
    simp only [] at h
    rcases ican_pfx hpat with hp | hp | hp <;>
      (split at h <;> cases h) <;> simp [hp]
  case isFalse => cases h

theorem btcStage_some {env : Env} {t el : Option Bool} {allowed : List String}
    {s : String} {r : NetworkInfo} (h : btcStage env t el allowed s = some r) :
    r.network = some "btc" ∧ enabledNetwork ["btc"] allowed = true := by
  unfold btcStage at h
  split at h
  case isTrue hen =>
    refine ⟨?_, hen⟩
    try simp only [] at h
    repeat' split at h
    all_goals (try cases h)
    all_goals rfl
  case isFalse => cases h

theorem ltcStage_some {env : Env} {t el : Option Bool} {allowed : List String}
    {s : String} {r : NetworkInfo} (h : ltcStage env t el allowed s = some r) :
    r.network = some "ltc" ∧ enabledNetwork ["ltc"] allowed = true := by
  unfold ltcStage at h
  split at h
  case isTrue hen =>
    refine ⟨?_, hen⟩
    try simp only [] at h
    repeat' split at h
    all_goals (try cases h)
    all_goals rfl
  case isFalse => cases h

theorem atomStage_some {allowed : List String} {s : String} {r : NetworkInfo}
    (h : atomStage allowed s = some r) :
    r.network = some "atom" ∧ enabledNetwork ["atom"] allowed = true := by
  unfold atomStage at h
  split at h
  case isTrue hen =>
    refine ⟨?_, hen⟩
    split at h
    · cases h; rfl
    · cases h
  case isFalse => cases h

theorem adaStage_some {t : Option Bool} {allowed : List String} {s : String}
    {r : NetworkInfo} (h : adaStage t allowed s = some r) :
    r.network = some "ada" ∧ enabledNetwork ["ada"] allowed = true := by
  unfold adaStage at h
  split at h
  case isTrue hen =>
    refine ⟨?_, hen⟩
    try simp only [] at h
    repeat' split at h
    all_goals (try cases h)
    all_goals rfl
  case isFalse => cases h

theorem xrpStage_some {allowed : List String} {s : String} {r : NetworkInfo}
    (h : xrpStage allowed s = some r) :
    r.network = some "xrp" ∧ enabledNetwork ["xrp"] allowed = true := by
  unfold xrpStage at h
  split at h
  case isTrue hen =>
    refine ⟨?_, hen⟩
    split at h
    · cases h; rfl
    · cases h
  case isFalse => cases h

theorem tronStage_some {t : Option Bool} {allowed : List String} {s : String}
    {r : NetworkInfo} (h : tronStage t allowed s = some r) :
    r.network = some "trx" ∧ enabledNetwork ["trx", "tron"] allowed = true := by
  unfold tronStage at h
  split at h
  case isTrue hen =>
    refine ⟨?_, hen⟩
    try simp only [] at h
    repeat' split at h
    all_goals (try cases h)
    all_goals rfl
  case isFalse => cases h

theorem solStage_some {t : Option Bool} {allowed : List String} {s : String}
    {r : NetworkInfo} (h : solStage t allowed s = some r) :
    r.network = some "sol" ∧ enabledNetwork ["sol"] allowed = true ∧
      (r.isValid = true → startsWithAny solDotExclusions s = false) := by
  unfold solStage at h
  split at h
  case isTrue hen =>
    split at h
    case isTrue hp =>
      split at h
      case isTrue hex => cases h; exact ⟨rfl, hen, fun hv => by simp at hv⟩
      case isFalse hex =>
        cases h; exact ⟨rfl, hen, fun _ => by simpa using hex⟩
    case isFalse => cases h
  case isFalse => cases h

theorem dotStage_some {t : Option Bool} {allowed : List String} {s : String}
    {r : NetworkInfo} (h : dotStage t allowed s = some r) :
    r.network = some "dot" ∧ enabledNetwork ["dot"] allowed = true ∧
      (r.isValid = true → startsWithAny solDotExclusions s = false) := by
  unfold dotStage at h
  split at h
  case isTrue hen =>
    split at h
    case isTrue hp =>
      split at h
      case isTrue hex => cases h; exact ⟨rfl, hen, fun hv => by simp at hv⟩
      case isFalse hex =>
        cases h; exact ⟨rfl, hen, fun _ => by simpa using hex⟩
    case isFalse => cases h
  case isFalse => cases h

theorem algoStage_some {allowed : List String} {s : String} {r : NetworkInfo}
    (h : algoStage allowed s = some r) :
    r.network = some "algo" ∧ enabledNetwork ["algo"] allowed = true := by
  unfold algoStage at h
  split at h
  case isTrue hc => cases h; exact ⟨rfl, (Bool.and_eq_true_iff.mp hc).1⟩
  case isFalse => cases h

theorem xlmStage_some {allowed : List String} {s : String} {r : NetworkInfo}
    (h : xlmStage allowed s = some r) :
    r.network = some "xlm" ∧ enabledNetwork ["xlm"] allowed = true := by
  unfold xlmStage at h
  split at h
  case isTrue hc => cases h; exact ⟨rfl, (Bool.and_eq_true_iff.mp hc).1⟩
  case isFalse => cases h

theorem evmStage_skip {allowed : List String} {force : Bool} {s : String}
    (h : enabledNetwork ["evm", "eth", "base", "pol"] allowed = false) :
    evmStage allowed force s = none := by
  unfold evmStage
  rw [h, Bool.and_false, if_neg (by simp)]

theorem icanStage_skip {t : Option Bool} {allowed : List String} {s : String}
    (h : enabledNetwork ["ican", "xcb", "xce", "xab"] allowed = false) :
    icanStage t allowed s = none := by
  unfold icanStage
  rw [h, Bool.false_and, if_neg (by simp)]

theorem btcStage_skip {env : Env} {t el : Option Bool} {allowed : List String}
    {s : String} (h : enabledNetwork ["btc"] allowed = false) :
    btcStage env t el allowed s = none := by
  unfold btcStage
  rw [if_neg (by simp [h])]

theorem ltcStage_skip {env : Env} {t el : Option Bool} {allowed : List String}
    {s : String} (h : enabledNetwork ["ltc"] allowed = false) :
    ltcStage env t el allowed s = none := by
  unfold ltcStage
  rw [if_neg (by simp [h])]

theorem atomStage_skip {allowed : List String} {s : String}
    (h : enabledNetwork ["atom"] allowed = false) :
    atomStage allowed s = none := by
  unfold atomStage
  rw [if_neg (by simp [h])]

theorem adaStage_skip {t : Option Bool} {allowed : List String} {s : String}
    (h : enabledNetwork ["ada"] allowed = false) :
    adaStage t allowed s = none := by
  unfold adaStage
  rw [if_neg (by simp [h])]

theorem xrpStage_skip {allowed : List String} {s : String}
    (h : enabledNetwork ["xrp"] allowed = false) :
    xrpStage allowed s = none := by
  unfold xrpStage
  rw [if_neg (by simp [h])]

theorem tronStage_skip {t : Option Bool} {allowed : List String} {s : String}
    (h : enabledNetwork ["trx", "tron"] allowed = false) :
    tronStage t allowed s = none := by
  unfold tronStage
  rw [if_neg (by simp [h])]

theorem solStage_skip {t : Option Bool} {allowed : List String} {s : String}
    (h : enabledNetwork ["sol"] allowed = false) :
    solStage t allowed s = none := by
  unfold solStage
  rw [if_neg (by simp [h])]

theorem dotStage_skip {t : Option Bool} {allowed : List String} {s : String}
    (h : enabledNetwork ["dot"] allowed = false) :
    dotStage t allowed s = none := by
  unfold dotStage
  rw [if_neg (by simp [h])]

theorem algoStage_skip {allowed : List String} {s : String}
    (h : enabledNetwork ["algo"] allowed = false) :
    algoStage allowed s = none := by
  unfold algoStage
  rw [h, Bool.false_and, if_neg (by simp)]

theorem xlmStage_skip {allowed : List String} {s : String}
    (h : enabledNetwork ["xlm"] allowed = false) :
    xlmStage allowed s = none := by
  unfold xlmStage
  rw [h, Bool.false_and, if_neg (by simp)]

theorem bchStage_skip {allowed : List String} {s : String}
    (h : enabledNetwork ["bch"] allowed = false) :
    bchStage allowed s = none := by
  unfold bchStage
  rw [h, Bool.false_and, if_neg (by simp)]

theorem bchStage_some {allowed : List String} {s : String} {r : NetworkInfo}
    (h : bchStage allowed s = some r) :
    r.network = some "bch" ∧ enabledNetwork ["bch"] allowed = true := by
  unfold bchStage at h
  split at h
  case isTrue hc =>
    refine ⟨?_, (Bool.and_eq_true_iff.mp hc).1⟩
    simp only [] at h
    repeat' split at h
    all_goals (try cases h)
    all_goals rfl
  case isFalse => cases h


/-- Unfolding of the main function on string input with well-formed options. -/
theorem main_str_eq {env : Env} {opts : ValidationOptions} {force : Bool}
    {s : String} (hvo : validateOptions opts = none) (hs : s ≠ "") :
    validateWalletAddress env (.str s) opts force =
      (firstSome (stageList env opts force (opts.network.getD [])
        (opts.emojiAllowed.getD true)
        ((opts.nsDomains.getD []).map normalizeEntry) s)).getD unknownResult := by
  unfold validateWalletAddress
  rw [hvo]
  simp only [if_neg hs]

/-- Every result of the main function on string input either carries no
network attribution or is produced by one of the fourteen stages. -/
theorem main_str_cases (env : Env) (opts : ValidationOptions) (force : Bool)
    (s : String) :
    (validateWalletAddress env (.str s) opts force).network = none ∨
      some (validateWalletAddress env (.str s) opts force) ∈
        stageList env opts force (opts.network.getD [])
          (opts.emojiAllowed.getD true)
          ((opts.nsDomains.getD []).map normalizeEntry) s := by
  cases hvo : validateOptions opts with
  | some err =>
    left
    unfold validateWalletAddress
    rw [hvo]
    exact validateOptions_network hvo
  | none =>
    by_cases hs : s = ""
    · left
      unfold validateWalletAddress
      rw [hvo]
      simp [hs, invalidInputResult]
    · rw [main_str_eq hvo hs]
      cases hfs : firstSome (stageList env opts force (opts.network.getD [])
          (opts.emojiAllowed.getD true)
          ((opts.nsDomains.getD []).map normalizeEntry) s) with
      | none => left; rfl
      | some r => right; exact firstSome_mem hfs

/-- Non-string input with well-formed options yields the invalid-input
result. -/
theorem main_nonString {env : Env} {opts : ValidationOptions} {force : Bool}
    (hvo : validateOptions opts = none) :
    validateWalletAddress env .nonString opts force = invalidInputResult := by
  unfold validateWalletAddress
  rw [hvo]

/-- Empty-string input with well-formed options yields the invalid-input
result. -/
theorem main_empty {env : Env} {opts : ValidationOptions} {force : Bool}
    (hvo : validateOptions opts = none) :
    validateWalletAddress env (.str "") opts force = invalidInputResult := by
  unfold validateWalletAddress
  rw [hvo]
  rfl

/-- With a nonempty allow-list, `enabledNetwork` is the membership test. -/
theorem enabledNetwork_ne_nil {fam l : List String} (hl : l ≠ []) :
    enabledNetwork fam l = fam.any (fun m => l.contains m) := by
  unfold enabledNetwork
  rw [if_neg (by simpa using hl)]

/-- The alias family of each reportable (non-NS) network identifier: the
identifier list of the stage gate that can produce it. -/
def familyOf (n : String) : List String :=
  if n = "evm" then ["evm", "eth", "base", "pol"]
  else if n = "xcb" || n = "xce" || n = "xab" then ["ican", "xcb", "xce", "xab"]
  else if n = "trx" then ["trx", "tron"]
  else [n]

/-- Every identifier consulted by an `enabledNetwork` gate of the chain. -/
def gateIdentifiers : List String :=
  ["evm", "eth", "base", "pol", "ican", "xcb", "xce", "xab", "btc", "ltc",
   "atom", "ada", "xrp", "trx", "tron", "sol", "dot", "algo", "xlm", "bch"]

/-- The reserved prefixes of families 3-8 that the code really keeps away
from the loose base58 families: the ten literal sol/dot exclusions, the
four Cardano prefixes (whose strings the Cardano stage always claims), and
`T` (whose strings the Tron stage always claims).  Only the single-letter
prefixes `1`, `3`, `L`, `M` are NOT protected. -/
def c2ReservedKept : List String :=
  ["cosmos", "osmo", "axelar", "juno", "stars", "bc1", "tb1", "ltc1", "tltc1",
   "addr1", "addr_test1", "stake1", "stake_test1", "r", "T"]

theorem firstSome_nil : firstSome [] = none := rfl

theorem firstSome_cons_some (r : NetworkInfo) (rest : List (Option NetworkInfo)) :
    firstSome (some r :: rest) = some r := rfl

theorem firstSome_cons_none (rest : List (Option NetworkInfo)) :
    firstSome (none :: rest) = firstSome rest := rfl

/-- The Tron stage claims every `T`-prefixed string (valid or not). -/
theorem tronStage_T {t : Option Bool} {allowed : List String} {s : String}
    (hT : startsWithStr "T" s = true)
    (hen : enabledNetwork ["trx", "tron"] allowed = true) :
    tronStage t allowed s ≠ none := by
  unfold tronStage
  rw [if_pos hen, hT]
  simp only [Bool.true_or, if_true]
  split <;> simp

/-- The Cardano stage claims every string starting with one of its four
prefixes (as a recognized address or through the invalid-format
fallthrough). -/
theorem adaStage_claims_prefixed {t : Option Bool} {allowed : List String}
    {s : String} (hada : startsWithAny adaPrefixList s = true)
    (hen : enabledNetwork ["ada"] allowed = true) :
    adaStage t allowed s ≠ none := by
  unfold adaStage
  rw [if_pos hen]
  repeat' split
  all_goals simp_all

/-- Decomposition of the protected prefixes into the three mechanisms that
protect them. -/
theorem c2ReservedKept_split {s : String}
    (h : startsWithAny c2ReservedKept s = true) :
    startsWithAny solDotExclusions s = true ∨ startsWithStr "T" s = true ∨
      startsWithAny adaPrefixList s = true := by
  simp only [startsWithAny, List.any_eq_true] at h ⊢
  obtain ⟨p, hp, hs⟩ := h
  fin_cases hp
  · exact Or.inl ⟨"cosmos", by decide, hs⟩
  · exact Or.inl ⟨"osmo", by decide, hs⟩
  · exact Or.inl ⟨"axelar", by decide, hs⟩
  · exact Or.inl ⟨"juno", by decide, hs⟩
  · exact Or.inl ⟨"stars", by decide, hs⟩
  · exact Or.inl ⟨"bc1", by decide, hs⟩
  · exact Or.inl ⟨"tb1", by decide, hs⟩
  · exact Or.inl ⟨"ltc1", by decide, hs⟩
  · exact Or.inl ⟨"tltc1", by decide, hs⟩
  · exact Or.inr (Or.inr ⟨"addr1", by decide, hs⟩)
  · exact Or.inr (Or.inr ⟨"addr_test1", by decide, hs⟩)
  · exact Or.inr (Or.inr ⟨"stake1", by decide, hs⟩)
  · exact Or.inr (Or.inr ⟨"stake_test1", by decide, hs⟩)
  · exact Or.inl ⟨"r", by decide, hs⟩
  · exact Or.inr (Or.inl hs)

/-- A gate over unlisted-only identifiers is disabled by a non-empty
allow-list none of whose members is a recognized identifier. -/
theorem enabledNetwork_unlisted {fam l : List String} (hne : l ≠ [])
    (hfam : ∀ m ∈ fam, m ∈ gateIdentifiers)
    (hl : ∀ m ∈ l, m ∉ gateIdentifiers) :
    enabledNetwork fam l = false := by
  rw [enabledNetwork_ne_nil hne, List.any_eq_false]
  intro m hm hc
  exact hl m (by simpa using hc) (hfam m hm)


/-- Structure of a validly-attributed Solana or Polkadot result: the
priority chain reached the sol/dot stage (so the earlier Tron and Cardano
stages returned `none`) and the reserved-prefix exclusion test failed. -/
theorem main_valid_sol_dot (env : Env) (opts : ValidationOptions)
    (force : Bool) (s : String) (hvo : validateOptions opts = none)
    (hnet : (validateWalletAddress env (.str s) opts force).network = some "sol" ∨
      (validateWalletAddress env (.str s) opts force).network = some "dot")
    (hval : (validateWalletAddress env (.str s) opts force).isValid = true) :
    startsWithAny solDotExclusions s = false ∧
      tronStage opts.testnet (opts.network.getD []) s = none ∧
      adaStage opts.testnet (opts.network.getD []) s = none := by
  by_cases hs : s = ""
  · rw [hs, main_empty hvo] at hnet
    rcases hnet with hnet | hnet <;> exact absurd hnet (by decide)
  rw [main_str_eq hvo hs] at hnet hval
  simp only [stageList] at hnet hval
  cases h0 : nsStage env (opts.emojiAllowed.getD true)
      ((opts.nsDomains.getD []).map normalizeEntry) s with
  | some r =>
    rw [h0, firstSome_cons_some] at hnet
    simp only [Option.getD_some] at hnet
    have hx := nsStage_some h0
    rcases hnet with hnet | hnet <;> rw [hnet] at hx <;> exact absurd hx (by decide)
  | none =>
  rw [h0, firstSome_cons_none] at hnet hval
  cases h1 : evmStage (opts.network.getD []) force s with
  | some r =>
    rw [h1, firstSome_cons_some] at hnet
    simp only [Option.getD_some] at hnet
    have hx := (evmStage_some h1).1
    rcases hnet with hnet | hnet <;> rw [hnet] at hx <;> exact absurd hx (by decide)
  | none =>
  rw [h1, firstSome_cons_none] at hnet hval
  cases h2 : icanStage opts.testnet (opts.network.getD []) s with
  | some r =>
    rw [h2, firstSome_cons_some] at hnet
    simp only [Option.getD_some] at hnet
    rcases (icanStage_some h2).1 with hx | hx | hx <;>
      rcases hnet with hnet | hnet <;> rw [hnet] at hx <;> exact absurd hx (by decide)
  | none =>
  rw [h2, firstSome_cons_none] at hnet hval
  cases h3 : btcStage env opts.testnet opts.enabledLegacy (opts.network.getD []) s with
  | some r =>
    rw [h3, firstSome_cons_some] at hnet
    simp only [Option.getD_some] at hnet
    have hx := (btcStage_some h3).1
    rcases hnet with hnet | hnet <;> rw [hnet] at hx <;> exact absurd hx (by decide)
  | none =>
  rw [h3, firstSome_cons_none] at hnet hval
  cases h4 : ltcStage env opts.testnet opts.enabledLegacy (opts.network.getD []) s with
  | some r =>
    rw [h4, firstSome_cons_some] at hnet
    simp only [Option.getD_some] at hnet
    have hx := (ltcStage_some h4).1
    rcases hnet with hnet | hnet <;> rw [hnet] at hx <;> exact absurd hx (by decide)
  | none =>
  rw [h4, firstSome_cons_none] at hnet hval
  cases h5 : atomStage (opts.network.getD []) s with
  | some r =>
    rw [h5, firstSome_cons_some] at hnet
    simp only [Option.getD_some] at hnet
    have hx := (atomStage_some h5).1
    rcases hnet with hnet | hnet <;> rw [hnet] at hx <;> exact absurd hx (by decide)
  | none =>
  rw [h5, firstSome_cons_none] at hnet hval
  cases h6 : adaStage opts.testnet (opts.network.getD []) s with
  | some r =>
    rw [h6, firstSome_cons_some] at hnet
    simp only [Option.getD_some] at hnet
    have hx := (adaStage_some h6).1
    rcases hnet with hnet | hnet <;> rw [hnet] at hx <;> exact absurd hx (by decide)
  | none =>
  rw [h6, firstSome_cons_none] at hnet hval
  cases h7 : xrpStage (opts.network.getD []) s with
  | some r =>
    rw [h7, firstSome_cons_some] at hnet
    simp only [Option.getD_some] at hnet
    have hx := (xrpStage_some h7).1
    rcases hnet with hnet | hnet <;> rw [hnet] at hx <;> exact absurd hx (by decide)
  | none =>
  rw [h7, firstSome_cons_none] at hnet hval
  cases h8 : tronStage opts.testnet (opts.network.getD []) s with
  | some r =>
    rw [h8, firstSome_cons_some] at hnet
    simp only [Option.getD_some] at hnet
    have hx := (tronStage_some h8).1
    rcases hnet with hnet | hnet <;> rw [hnet] at hx <;> exact absurd hx (by decide)
  | none =>
  rw [h8, firstSome_cons_none] at hnet hval
  cases h9 : solStage opts.testnet (opts.network.getD []) s with
  | some r =>
    rw [h9, firstSome_cons_some] at hnet hval
    simp only [Option.getD_some] at hnet hval
    exact ⟨(solStage_some h9).2.2 hval, rfl, rfl⟩
  | none =>
  rw [h9, firstSome_cons_none] at hnet hval
  cases h10 : dotStage opts.testnet (opts.network.getD []) s with
  | some r =>
    rw [h10, firstSome_cons_some] at hnet hval
    simp only [Option.getD_some] at hnet hval
    exact ⟨(dotStage_some h10).2.2 hval, rfl, rfl⟩
  | none =>
  rw [h10, firstSome_cons_none] at hnet hval
  cases h11 : algoStage (opts.network.getD []) s with
  | some r =>
    rw [h11, firstSome_cons_some] at hnet
    simp only [Option.getD_some] at hnet
    have hx := (algoStage_some h11).1
    rcases hnet with hnet | hnet <;> rw [hnet] at hx <;> exact absurd hx (by decide)
  | none =>
  rw [h11, firstSome_cons_none] at hnet hval
  cases h12 : xlmStage (opts.network.getD []) s with
  | some r =>
    rw [h12, firstSome_cons_some] at hnet
    simp only [Option.getD_some] at hnet
    have hx := (xlmStage_some h12).1
    rcases hnet with hnet | hnet <;> rw [hnet] at hx <;> exact absurd hx (by decide)
  | none =>
  rw [h12, firstSome_cons_none] at hnet hval
  cases h13 : bchStage (opts.network.getD []) s with
  | some r =>
    rw [h13, firstSome_cons_some] at hnet
    simp only [Option.getD_some] at hnet
    have hx := (bchStage_some h13).1
    rcases hnet with hnet | hnet <;> rw [hnet] at hx <;> exact absurd hx (by decide)
  | none =>
  rw [h13, firstSome_cons_none, firstSome_nil] at hnet
  rcases hnet with hnet | hnet <;> exact absurd hnet (by decide)

/-! ## Arithmetic of the mod-97 reduction loop -/

theorem parseIntChars_foldl (b : List Char) :
    ∀ acc : Nat, b.foldl (fun a c => 10 * a + (c.toNat - 48)) acc =
      acc * 10 ^ b.length + parseIntChars b := by
  induction b with
  | nil => intro acc; simp [parseIntChars]
  | cons c cs ih =>
    intro acc
    have e1 := ih (10 * acc + (c.toNat - 48))
    have e2 := ih (10 * 0 + (c.toNat - 48))
    simp only [List.foldl_cons, List.length_cons, parseIntChars] at *
    rw [e1, e2]
    ring

/-- Positional reading of a concatenation of digit strings. -/
theorem parseIntChars_append (a b : List Char) :
    parseIntChars (a ++ b) = parseIntChars a * 10 ^ b.length + parseIntChars b := by
  unfold parseIntChars
  rw [List.foldl_append]
  exact parseIntChars_foldl b _

/-- Reading back the decimal representation of a remainder below 100. -/
theorem parseIntChars_repr : ∀ n < 100, parseIntChars (Nat.repr n).data = n := by
  decide

/-- Replacing the head block by its remainder preserves the value mod 97. -/
theorem icanLoopAux_mod (fuel : Nat) :
    ∀ r : List Char, parseIntChars (icanLoopAux fuel r) % 97 = parseIntChars r % 97 := by
  induction fuel with
  | zero => intro r; rfl
  | succ k ih =>
    intro r
    by_cases hl : r.length > 2
    · simp only [icanLoopAux, if_pos hl]
      rw [ih]
      conv_rhs => rw [← List.take_append_drop 9 r]
      rw [parseIntChars_append, parseIntChars_append,
        parseIntChars_repr _ ((Nat.mod_lt _ (by omega)).trans_le (by omega))]
      exact ((Nat.mod_modEq (parseIntChars (r.take 9)) 97).mul_right _).add_right _
    · simp only [icanLoopAux, if_neg hl]

/-- The 9-digit-chunk loop computes exactly the big-integer remainder. -/
theorem icanLoop_mod (r : List Char) :
    parseIntChars (icanLoop r) % 97 = parseIntChars r % 97 :=
  icanLoopAux_mod r.length r


/-! ## Claims -/

set_option maxRecDepth 400000 in
/-- C1 (code bug witness): the claim says any `0x` + 40-hex-digit address
with an entirely uppercase body skips the checksum and is reported valid;
the code compares the whole address (whose `x` is lowercase) against its
own `toUpperCase`, so the uppercase shortcut never fires: for `0x` + 40
`A`s both `validateEVMChecksum` and the full pipeline report invalid. -/
theorem C1_uppercase_not_skipped :
    validateEVMChecksum "0xAAAAAAAAAAAAAAAAAAAAAAAAAAAAAAAAAAAAAAAA" false = false ∧
      validateWalletAddress asciiEnv
          (.str "0xAAAAAAAAAAAAAAAAAAAAAAAAAAAAAAAAAAAAAAAA") defaultOptions false =
        { network := some "evm", isValid := false,
          description := some "Ethereum Virtual Machine compatible address (Ethereum, Polygon, BSC, etc.)",
          metadata := some [("format", .s "hex"), ("isChecksumValid", .b false)] } := by
  constructor
  · decide
  · decide

/-- C2 (counterexample): a 36-character base58 string starting with the
reserved btc legacy prefix `1` matches the Solana pattern and is still
reported as a valid Solana address under default options. -/
theorem C2_counterexample :
    startsWithStr "1" "111111111111111111111111111111111111" = true ∧
      patterns.sol "111111111111111111111111111111111111" = true ∧
      validateWalletAddress asciiEnv
          (.str "111111111111111111111111111111111111") defaultOptions false =
        { network := some "sol", isValid := true,
          description := some "Solana address",
          metadata := some [("format", .s "base58"), ("isTestnet", .b false)] } := by
  refine ⟨by decide, by decide, by decide⟩

/-- C2 (amended): for strings matching the Solana or Polkadot pattern and
beginning with any reserved prefix of families 3-8 other than the four
single-letter prefixes `1`, `3`, `L`, `M` - that is, any of cosmos, osmo,
axelar, juno, stars, bc1, tb1, ltc1, tltc1, r (the literal sol/dot
exclusion list), addr1, addr_test1, stake1, stake_test1 (claimed by the
Cardano stage), or T (claimed by the Tron stage) - the validator with
default options never reports a valid Solana or Polkadot address. -/
theorem C2_reserved_exclusion (env : Env) (s : String) (force : Bool)
    (_hpat : patterns.sol s = true ∨ patterns.dot s = true)
    (hpfx : startsWithAny c2ReservedKept s = true) :
    ¬(((validateWalletAddress env (.str s) defaultOptions force).network = some "sol" ∨
        (validateWalletAddress env (.str s) defaultOptions force).network = some "dot") ∧
      (validateWalletAddress env (.str s) defaultOptions force).isValid = true) := by
  rintro ⟨hnet, hval⟩
  obtain ⟨hex, htron, hada⟩ :=
    main_valid_sol_dot env defaultOptions force s rfl hnet hval
  rcases c2ReservedKept_split hpfx with hp | hp | hp
  · rw [hp] at hex; cases hex
  · exact tronStage_T hp
      (show enabledNetwork ["trx", "tron"] (defaultOptions.network.getD []) = true from rfl) htron
  · exact adaStage_claims_prefixed hp
      (show enabledNetwork ["ada"] (defaultOptions.network.getD []) = true from rfl) hada

/-- C2 (amended) witness at a concrete cosmos-prefixed sol-pattern string. -/
theorem C2_reserved_exclusion_witness :
    (patterns.sol "cosmos1qqqqqqqqqqqqqqqqqqqqqqqqqqqqqqqq" = true ∨
        patterns.dot "cosmos1qqqqqqqqqqqqqqqqqqqqqqqqqqqqqqqq" = true) ∧
      startsWithAny c2ReservedKept "cosmos1qqqqqqqqqqqqqqqqqqqqqqqqqqqqqqqq" = true ∧
      ¬(((validateWalletAddress asciiEnv
            (.str "cosmos1qqqqqqqqqqqqqqqqqqqqqqqqqqqqqqqq") defaultOptions false).network = some "sol" ∨
          (validateWalletAddress asciiEnv
            (.str "cosmos1qqqqqqqqqqqqqqqqqqqqqqqqqqqqqqqq") defaultOptions false).network = some "dot") ∧
        (validateWalletAddress asciiEnv
          (.str "cosmos1qqqqqqqqqqqqqqqqqqqqqqqqqqqqqqqq") defaultOptions false).isValid = true) :=
  ⟨Or.inl (by decide), by decide,
    C2_reserved_exclusion asciiEnv _ false (Or.inl (by decide)) (by decide)⟩

/-- C3 (counterexample): a whitespace-only (non-empty) string is truthy in
JS, passes the `!address` guard, matches no recognizer, and is reported as
"Unknown address format", not "Invalid input". -/
theorem C3_counterexample :
    validateWalletAddress asciiEnv (.str " ") defaultOptions false =
        { network := none, isValid := false,
          description := some "Unknown address format" } ∧
      validateWalletAddress asciiEnv (.str " ") defaultOptions false ≠
        { network := none, isValid := false, description := some "Invalid input" } := by
  refine ⟨by decide, by decide⟩

/-- C3 (amended): a non-string or empty-string address argument yields
exactly the invalid-input result (when the options are well-formed, since
an options error takes precedence); whitespace-only non-empty strings are
not caught by this guard. -/
theorem C3_invalid_input (env : Env) (opts : ValidationOptions) (force : Bool)
    (hvo : validateOptions opts = none) :
    validateWalletAddress env .nonString opts force =
        { network := none, isValid := false, description := some "Invalid input" } ∧
      validateWalletAddress env (.str "") opts force =
        { network := none, isValid := false, description := some "Invalid input" } :=
  ⟨main_nonString hvo, main_empty hvo⟩

/-- C3 (amended) witness at the default options. -/
theorem C3_invalid_input_witness :
    validateOptions defaultOptions = none ∧
      validateWalletAddress asciiEnv .nonString defaultOptions false =
        { network := none, isValid := false, description := some "Invalid input" } ∧
      validateWalletAddress asciiEnv (.str "") defaultOptions false =
        { network := none, isValid := false, description := some "Invalid input" } :=
  ⟨rfl, (C3_invalid_input asciiEnv defaultOptions false rfl).1,
    (C3_invalid_input asciiEnv defaultOptions false rfl).2⟩

/-- C4 (counterexample): the Name-Service stage is not gated by the
network allow-list: with `network: ["btc"]` and an `eth` NS domain
configured, `test.eth` is still classified as a valid `ns` result although
`ns` is not among the listed networks. -/
theorem C4_counterexample :
    (validateWalletAddress asciiEnv (.str "test.eth")
        { network := some ["btc"], nsDomains := some [.str "eth"] } false).network = some "ns" ∧
      (validateWalletAddress asciiEnv (.str "test.eth")
        { network := some ["btc"], nsDomains := some [.str "eth"] } false).isValid = true ∧
      ("ns" : String) ∉ (["btc"] : List String) := by
  refine ⟨by decide, by decide, by decide⟩

/-- C4 (amended): apart from the NS stage (which only consults
`nsDomains`), a non-empty allow-list confines the result: any non-`ns`
network attribution belongs to a stage whose alias family meets the list. -/
theorem C4_allowlist_confinement (env : Env) (inp : AddressInput)
    (opts : ValidationOptions) (force : Bool) (l : List String)
    (hl : opts.network = some l) (hne : l ≠ []) (n : String)
    (hn : (validateWalletAddress env inp opts force).network = some n)
    (hns : n ≠ "ns") :
    (familyOf n).any (fun m => l.contains m) = true := by
  cases inp with
  | nonString =>
    cases hvo : validateOptions opts with
    | some err =>
      unfold validateWalletAddress at hn
      rw [hvo] at hn
      rw [validateOptions_network hvo] at hn
      cases hn
    | none =>
      rw [main_nonString hvo] at hn
      cases hn
  | str s =>
    rcases main_str_cases env opts force s with h0 | hm
    · rw [hn] at h0; cases h0
    · have hall : opts.network.getD [] = l := by rw [hl]; rfl
      rw [hall] at hm
      simp only [stageList, List.mem_cons, List.not_mem_nil, or_false] at hm
      rcases hm with hm|hm|hm|hm|hm|hm|hm|hm|hm|hm|hm|hm|hm|hm
      · have hx := nsStage_some hm.symm
        rw [hn] at hx; cases hx; exact absurd rfl hns
      · obtain ⟨hid, hen⟩ := evmStage_some hm.symm
        rw [hn] at hid; cases hid
        rw [enabledNetwork_ne_nil hne] at hen
        simpa [familyOf] using hen
      · obtain ⟨hid3, hen⟩ := icanStage_some hm.symm
        rw [enabledNetwork_ne_nil hne] at hen
        rcases hid3 with hid | hid | hid <;> (rw [hn] at hid; cases hid) <;>
          simpa [familyOf] using hen
      · obtain ⟨hid, hen⟩ := btcStage_some hm.symm
        rw [hn] at hid; cases hid
        rw [enabledNetwork_ne_nil hne] at hen
        simpa [familyOf] using hen
      · obtain ⟨hid, hen⟩ := ltcStage_some hm.symm
        rw [hn] at hid; cases hid
        rw [enabledNetwork_ne_nil hne] at hen
        simpa [familyOf] using hen
      · obtain ⟨hid, hen⟩ := atomStage_some hm.symm
        rw [hn] at hid; cases hid
        rw [enabledNetwork_ne_nil hne] at hen
        simpa [familyOf] using hen
      · obtain ⟨hid, hen⟩ := adaStage_some hm.symm
        rw [hn] at hid; cases hid
        rw [enabledNetwork_ne_nil hne] at hen
        simpa [familyOf] using hen
      · obtain ⟨hid, hen⟩ := xrpStage_some hm.symm
        rw [hn] at hid; cases hid
        rw [enabledNetwork_ne_nil hne] at hen
        simpa [familyOf] using hen
      · obtain ⟨hid, hen⟩ := tronStage_some hm.symm
        rw [hn] at hid; cases hid
        rw [enabledNetwork_ne_nil hne] at hen
        simpa [familyOf] using hen
      · obtain ⟨hid, hen, -⟩ := solStage_some hm.symm
        rw [hn] at hid; cases hid
        rw [enabledNetwork_ne_nil hne] at hen
        simpa [familyOf] using hen
      · obtain ⟨hid, hen, -⟩ := dotStage_some hm.symm
        rw [hn] at hid; cases hid
        rw [enabledNetwork_ne_nil hne] at hen
        simpa [familyOf] using hen
      · obtain ⟨hid, hen⟩ := algoStage_some hm.symm
        rw [hn] at hid; cases hid
        rw [enabledNetwork_ne_nil hne] at hen
        simpa [familyOf] using hen
      · obtain ⟨hid, hen⟩ := xlmStage_some hm.symm
        rw [hn] at hid; cases hid
        rw [enabledNetwork_ne_nil hne] at hen
        simpa [familyOf] using hen
      · obtain ⟨hid, hen⟩ := bchStage_some hm.symm
        rw [hn] at hid; cases hid
        rw [enabledNetwork_ne_nil hne] at hen
        simpa [familyOf] using hen

/-- C4 (amended) witness: with allow-list `["sol"]` the 36-ones string is
attributed to `sol`, whose family meets the list. -/
theorem C4_allowlist_witness :
    ({ network := some ["sol"], nsDomains := some [] } : ValidationOptions).network =
        some ["sol"] ∧
      (validateWalletAddress asciiEnv (.str "111111111111111111111111111111111111")
        { network := some ["sol"], nsDomains := some [] } false).network = some "sol" ∧
      (familyOf "sol").any (fun m => (["sol"] : List String).contains m) = true :=
  ⟨rfl, by decide,
    C4_allowlist_confinement asciiEnv (.str "111111111111111111111111111111111111")
      { network := some ["sol"], nsDomains := some [] } false ["sol"] rfl
      (by decide) "sol" (by decide) (by decide)⟩


/-- C5: on ICAN-shaped strings the checksum verdict is exactly the
congruence class of the converted big integer: the iterative 9-digit-chunk
reduction computes the big-integer remainder modulo 97. -/
theorem C5_mod97_equiv (s : String) (_h : patterns.ican s = true) :
    validateICANChecksum s = true ↔ icanNumber s % 97 = 1 := by
  unfold validateICANChecksum icanNumber
  rw [icanLoop_mod]
  simp

/-- C5 witness at the mainnet example address. -/
theorem C5_mod97_equiv_witness :
    patterns.ican "cb7147879011ea207df5b35a24ca6f0859dcfb145999" = true ∧
      (validateICANChecksum "cb7147879011ea207df5b35a24ca6f0859dcfb145999" = true ↔
        icanNumber "cb7147879011ea207df5b35a24ca6f0859dcfb145999" % 97 = 1) :=
  ⟨by decide, C5_mod97_equiv _ (by decide)⟩

set_option maxRecDepth 100000 in
/-- C6 (code bug witness): `startsWith('ab')` is case-sensitive while the
ICAN pattern is case-insensitive, so the all-uppercase testnet address
`AB792215C43FC213C02182C8389F2BC32408E2C50922` (valid checksum) bypasses
the testnet gate under default options and is reported as a VALID `xab`
address instead of the claimed testnet policy rejection. -/
theorem C6_uppercase_testnet_bypass :
    patterns.ican "AB792215C43FC213C02182C8389F2BC32408E2C50922" = true ∧
      startsWithStr "ab" "AB792215C43FC213C02182C8389F2BC32408E2C50922" = false ∧
      (validateWalletAddress asciiEnv
          (.str "AB792215C43FC213C02182C8389F2BC32408E2C50922") defaultOptions false).network =
        some "xab" ∧
      (validateWalletAddress asciiEnv
          (.str "AB792215C43FC213C02182C8389F2BC32408E2C50922") defaultOptions false).isValid =
        true ∧
      (validateWalletAddress asciiEnv
          (.str "AB792215C43FC213C02182C8389F2BC32408E2C50922") defaultOptions false).description =
        some "ICAN address for Core blockchain networks" := by
  refine ⟨by decide, by decide, by decide, by decide, by decide⟩

/-- C7: with `nsDomains` absent or empty no input is ever classified as a
Name-Service domain: the stage is skipped and no other stage reports `ns`. -/
theorem C7_ns_opt_in (env : Env) (s : String) (opts : ValidationOptions)
    (force : Bool) (h : opts.nsDomains = some [] ∨ opts.nsDomains = none) :
    (validateWalletAddress env (.str s) opts force).network ≠ some "ns" := by
  intro hns
  rcases main_str_cases env opts force s with h0 | hm
  · rw [hns] at h0; cases h0
  · have hcfgs : (opts.nsDomains.getD []).map normalizeEntry = [] := by
      rcases h with h | h <;> rw [h] <;> rfl
    rw [hcfgs] at hm
    simp only [stageList, List.mem_cons, List.not_mem_nil, or_false] at hm
    rcases hm with hm|hm|hm|hm|hm|hm|hm|hm|hm|hm|hm|hm|hm|hm
    · rw [nsStage_nil] at hm; cases hm
    · have hx := (evmStage_some hm.symm).1; rw [hns] at hx; exact absurd hx (by decide)
    · rcases (icanStage_some hm.symm).1 with hx | hx | hx <;> rw [hns] at hx <;>
        exact absurd hx (by decide)
    · have hx := (btcStage_some hm.symm).1; rw [hns] at hx; exact absurd hx (by decide)
    · have hx := (ltcStage_some hm.symm).1; rw [hns] at hx; exact absurd hx (by decide)
    · have hx := (atomStage_some hm.symm).1; rw [hns] at hx; exact absurd hx (by decide)
    · have hx := (adaStage_some hm.symm).1; rw [hns] at hx; exact absurd hx (by decide)
    · have hx := (xrpStage_some hm.symm).1; rw [hns] at hx; exact absurd hx (by decide)
    · have hx := (tronStage_some hm.symm).1; rw [hns] at hx; exact absurd hx (by decide)
    · have hx := (solStage_some hm.symm).1; rw [hns] at hx; exact absurd hx (by decide)
    · have hx := (dotStage_some hm.symm).1; rw [hns] at hx; exact absurd hx (by decide)
    · have hx := (algoStage_some hm.symm).1; rw [hns] at hx; exact absurd hx (by decide)
    · have hx := (xlmStage_some hm.symm).1; rw [hns] at hx; exact absurd hx (by decide)
    · have hx := (bchStage_some hm.symm).1; rw [hns] at hx; exact absurd hx (by decide)

/-- C7 witness: a perfectly domain-shaped string under default options. -/
theorem C7_ns_opt_in_witness :
    (defaultOptions.nsDomains = some [] ∨ defaultOptions.nsDomains = none) ∧
      (validateWalletAddress asciiEnv (.str "vitalik.eth") defaultOptions false).network ≠
        some "ns" :=
  ⟨Or.inl rfl, C7_ns_opt_in asciiEnv "vitalik.eth" defaultOptions false (Or.inl rfl)⟩

/-- C8: the embedded validator is a pure function of its arguments (the
source keeps no state and performs no I/O), so two calls with the same
address, options, force flag and external services agree. -/
theorem C8_deterministic (env : Env) (inp : AddressInput)
    (opts : ValidationOptions) (force : Bool) :
    validateWalletAddress env inp opts force =
      validateWalletAddress env inp opts force := rfl

/-- C9: `validateEVMChecksum` returns `false` on every string that fails
the strict `/^0x[a-fA-F0-9]{40}$/` shape test, for both force flags; the
hash is never consulted. -/
theorem C9_shape_guard (s : String) (force : Bool)
    (h : evmStrictPattern s = false) :
    validateEVMChecksum s force = false := by
  unfold validateEVMChecksum
  rw [h]
  rfl

/-- C9 witness on a non-hex string. -/
theorem C9_shape_guard_witness :
    evmStrictPattern "hello" = false ∧ validateEVMChecksum "hello" true = false :=
  ⟨by decide, C9_shape_guard "hello" true (by decide)⟩

/-- C10: an allow-list that is non-empty but contains no recognized
network identifier silently skips every recognizer stage (with
Name-Service checking empty), so every non-empty input falls through to
the unknown-format result rather than producing an options error. -/
theorem C10_unrecognized_allowlist (env : Env) (s : String) (force : Bool)
    (opts : ValidationOptions) (l : List String)
    (hnet : opts.network = some l) (hlne : l ≠ [])
    (hl : ∀ m ∈ l, m ∉ gateIdentifiers)
    (hns : opts.nsDomains = some [] ∨ opts.nsDomains = none)
    (hse : s ≠ "") (_hw : s.data.all isJSWhitespace = false) :
    validateWalletAddress env (.str s) opts force =
      { network := none, isValid := false,
        description := some "Unknown address format" } := by
  have hvo : validateOptions opts = none := by
    unfold validateOptions
    rcases hns with hns | hns <;> simp [hns, checkNsEntries]
  rw [main_str_eq hvo hse]
  have hcfgs : (opts.nsDomains.getD []).map normalizeEntry = [] := by
    rcases hns with hns | hns <;> simp [hns]
  have hall : opts.network.getD [] = l := by rw [hnet]; rfl
  simp only [stageList]
  rw [hcfgs, hall, nsStage_nil,
    evmStage_skip (enabledNetwork_unlisted hlne (by decide) hl),
    icanStage_skip (enabledNetwork_unlisted hlne (by decide) hl),
    btcStage_skip (enabledNetwork_unlisted hlne (by decide) hl),
    ltcStage_skip (enabledNetwork_unlisted hlne (by decide) hl),
    atomStage_skip (enabledNetwork_unlisted hlne (by decide) hl),
    adaStage_skip (enabledNetwork_unlisted hlne (by decide) hl),
    xrpStage_skip (enabledNetwork_unlisted hlne (by decide) hl),
    tronStage_skip (enabledNetwork_unlisted hlne (by decide) hl),
    solStage_skip (enabledNetwork_unlisted hlne (by decide) hl),
    dotStage_skip (enabledNetwork_unlisted hlne (by decide) hl),
    algoStage_skip (enabledNetwork_unlisted hlne (by decide) hl),
    xlmStage_skip (enabledNetwork_unlisted hlne (by decide) hl),
    bchStage_skip (enabledNetwork_unlisted hlne (by decide) hl)]
  rfl

/-- C10 witness at the allow-list `["bar"]` and input `"abc"`. -/
theorem C10_unrecognized_allowlist_witness :
    ({ network := some ["bar"], nsDomains := some [] } : ValidationOptions).network =
        some ["bar"] ∧
      (["bar"] : List String) ≠ [] ∧ (∀ m ∈ (["bar"] : List String), m ∉ gateIdentifiers) ∧
      ("abc" : String) ≠ "" ∧ "abc".data.all isJSWhitespace = false ∧
      validateWalletAddress asciiEnv (.str "abc")
          { network := some ["bar"], nsDomains := some [] } false =
        { network := none, isValid := false,
          description := some "Unknown address format" } :=
  ⟨rfl, by decide, by decide, by decide, by decide,
    C10_unrecognized_allowlist asciiEnv "abc" false
      { network := some ["bar"], nsDomains := some [] } ["bar"] rfl (by decide)
      (by decide) (Or.inl rfl) (by decide) (by decide)⟩

end BWV
